import Mathlib

/-!
# shadowscan.c: rate limiter, result store, certificate-log scan, wordlist scan

A shallow embedding of `src/shadowscan.c`.

* A C string is the list of its characters up to (not including) the
  terminating NUL; one `Char` stands for one `char`.
* `int` values are `Int`; where the source narrows a wider value to `int`
  the narrowing is written `toInt32`.
* The process globals `results`, `result_count` and `total_requests_made`
  are fields of `ScanState`; `result_count` is the length of `results`.
* Everything the source reads from outside is an argument: the `rand()`
  draws and the clock (`World`), the reply to the crt.sh request (`CtReply`),
  the transfers of the wordlist scan (`Transport`), and for `main` the
  wordlist file and the answer typed at the prompt (`Run`).
* Library allocation inside `add_result`, `write_callback` and
  `load_wordlist` (`realloc`, `malloc`, `strdup`) is taken to succeed;
  `curl_easy_init` returning no handle is modelled, since the source tests it.
-/

namespace ShadowScan

/-! ## Configuration (lines 14-22) -/

/-- The macro `REQUESTS_PER_MINUTE`. -/
def REQUESTS_PER_MINUTE : Int := 12

/-- The macro `MIN_DELAY_MS`. -/
def MIN_DELAY_MS : Int := 4000

/-- The macro `MAX_DELAY_MS`. -/
def MAX_DELAY_MS : Int := 8000

/-- Conversion of a wider integer to a 32-bit `int` (two's complement wrap). -/
def toInt32 (n : Int) : Int := (n + 2 ^ 31) % 2 ^ 32 - 2 ^ 31

/-! ## The delay computation of `rate_limit` (lines 184-193)

The target rate is a parameter here; the source fixes it to
`REQUESTS_PER_MINUTE`. C's `/` and `%` on `int` truncate toward zero
(`Int.tdiv`, `Int.tmod`) and are undefined for a zero divisor. -/

/-- The value `base_delay_ms = (60 * 1000) / target` of line 185. -/
def base_delay_ms (target : Int) : Int := Int.tdiv (60 * 1000) target

/-- The value `jitter = (base_delay_ms * 25) / 100` of line 188. -/
def jitter (target : Int) : Int := Int.tdiv (base_delay_ms target * 25) 100

/-- The signed offset `(rand() % (2 * jitter)) - jitter` that line 189 adds
to the base delay, for the draw `r = rand()`. Meaningful when
`2 * jitter target` is not zero. -/
def jitter_offset (target : Int) (r : Nat) : Int :=
  Int.tmod (r : Int) (2 * jitter target) - jitter target

/-- The two clamping statements of lines 192-193. -/
def clamp_delay (actual_delay_ms : Int) : Int :=
  let d := if actual_delay_ms < MIN_DELAY_MS then MIN_DELAY_MS else actual_delay_ms
  if d > MAX_DELAY_MS then MAX_DELAY_MS else d

/-- The delay `actual_delay_ms` that `rate_limit` sleeps for, given the target
rate and the draw `r = rand()`. `none` when the computation divides by zero
(`target = 0` in line 185, or `2 * jitter = 0` in line 189). -/
def rate_limit_delay (target : Int) (r : Nat) : Option Int :=
  if target = 0 then none
  else if 2 * jitter target = 0 then none
  else some (clamp_delay (base_delay_ms target + jitter_offset target r))

/-! ## C strings and the libc calls the source makes on them -/

/-- The terminating NUL of a C string. -/
def NUL : Char := Char.ofNat 0

/-- The double quote character. -/
def QUOTE : Char := Char.ofNat 34

/-- The line feed character. -/
def NEWLINE : Char := Char.ofNat 10

/-- The comment sign of wordlist files, the hash character. -/
def HASH : Char := Char.ofNat 35

/-- The C string held in a buffer of raw bytes: everything before the first NUL. -/
def cstr (bytes : List Char) : List Char := bytes.takeWhile (fun c => c != NUL)

/-- `strstr(hay, needle)`: the rest of `hay` from the first occurrence of
`needle` on, `none` for a NULL result. -/
def strstr : List Char → List Char → Option (List Char)
  | [], needle => if needle.isPrefixOf [] then some [] else none
  | c :: cs, needle =>
    if needle.isPrefixOf (c :: cs) then some (c :: cs) else strstr cs needle

/-- `strchr(s, ch)` for a character `ch` other than NUL: the rest of `s` from
the first `ch` on, `none` for a NULL result. -/
def strchr : List Char → Char → Option (List Char)
  | [], _ => none
  | c :: cs, ch => if c = ch then some (c :: cs) else strchr cs ch

/-- `snprintf(buf, size, ...)` of an already formatted text: at most
`size - 1` characters are stored. -/
def snprintf (size : Nat) (text : List Char) : List Char := text.take (size - 1)

/-! ## Structures and globals (lines 34-53) -/

/-- The struct `SubdomainResult`. -/
structure SubdomainResult where
  subdomain : List Char
  found : Int
  ip : List Char
  http_status : Int
  deriving DecidableEq, Repr

/-- What the run prints and sleeps, as far as the rate limiter and the
progress line are concerned. -/
inductive Event where
  /-- Lines 196 and 213: the delay shown with its request number, then slept. -/
  | delay (request_num : Int) (actual_delay_ms : Int)
  /-- Line 208: the current rate is shown (only when `elapsed > 0`). -/
  | current_rate (total_requests_made : Int) (elapsed : Int)
  /-- Line 475: the progress line after every tenth test. -/
  | progress (tested : Int) (elapsed : Int)
  deriving DecidableEq, Repr

/-- What the program reads from outside while scanning: the `k`-th value
returned by `rand()` and the `k`-th value returned by `time(NULL)`. -/
structure World where
  rand : Nat → Nat
  time : Nat → Int

/-- The globals `results` (with `result_count` its length),
`total_requests_made` and `scan_start_time`, the number of `rand()` and
`time()` calls made so far, and the events emitted so far. -/
structure ScanState where
  results : List SubdomainResult
  total_requests_made : Int
  scan_start_time : Int
  rand_calls : Nat
  time_calls : Nat
  trace : List Event

/-- The global `result_count`. -/
def ScanState.result_count (st : ScanState) : Int := st.results.length

/-! ## `rate_limit` (lines 181-214) -/

/-- The function `rate_limit`: the counter is incremented, the delay is
computed from one `rand()` draw at `REQUESTS_PER_MINUTE`, shown with
`request_num`, the clock is read once for the current-rate line, and the
delay is slept. `none` when the delay computation is undefined. -/
def rate_limit (w : World) (request_num : Int) (st : ScanState) : Option ScanState :=
  let total := st.total_requests_made + 1
  match rate_limit_delay REQUESTS_PER_MINUTE (w.rand st.rand_calls) with
  | none => none
  | some actual_delay_ms =>
    let now := w.time st.time_calls
    let elapsed := now - st.scan_start_time
    let shown := if elapsed > 0 then [Event.current_rate total elapsed] else []
    some { st with
      total_requests_made := total
      rand_calls := st.rand_calls + 1
      time_calls := st.time_calls + 1
      trace := st.trace ++ (Event.delay request_num actual_delay_ms :: shown) }

/-! ## `add_result` (lines 233-248) -/

/-- The function `add_result`: one record is written at index `result_count`
and `result_count` is incremented. `strncpy` with the terminator set by hand
keeps at most 255 characters of `subdomain` and 45 of `ip`; a NULL `ip`
(`none`) gives the empty string. -/
def add_result (subdomain : List Char) (found : Int) (ip : Option (List Char))
    (http_status : Int) (st : ScanState) : ScanState :=
  { st with results := st.results ++
      [{ subdomain := subdomain.take 255
         found := found
         ip := match ip with
           | some s => s.take 45
           | none => []
         http_status := http_status }] }

/-! ## `query_certificate_transparency` (lines 331-403) -/

/-- What the transfer of the crt.sh request gave: whether
`curl_easy_perform` returned `CURLE_OK`, and the bytes that `write_callback`
collected in `response.data` (`none` while it is NULL). -/
structure CtReply where
  res_ok : Bool
  data : Option (List Char)

/-- The marker the response is searched for. -/
def NAME_VALUE : List Char := "name_value".toList

/-- The sentinel address of a record taken from a certificate. -/
def FROM_CERT : List Char := "N/A (from cert)".toList

/-- The `while` loop of lines 364-386 from the position `ptr`. Each round
finds the marker, skips its 10 characters, takes `start` after the next
quote and `end` at the quote after that, and for `0 < len < 500` copies the
`len` characters and stores them when they contain `domain`; then
`ptr = end`. `len` is the `int` made from `end - start`. The local counter
`found` only feeds the message printed after the loop and is left out.
`none` when `fuel` rounds did not finish the loop. -/
def ct_loop (domain : List Char) : Nat → List Char → ScanState → Option ScanState
  | 0, _, _ => none
  | fuel + 1, ptr, st =>
    match strstr ptr NAME_VALUE with
    | none => some st
    | some p =>
      match strchr (p.drop 10) QUOTE with
      | none => some st
      | some q =>
        let start := q.drop 1
        match strchr start QUOTE with
        | none => some st
        | some end_ =>
          let len := toInt32 ((start.length : Int) - (end_.length : Int))
          let st1 :=
            if 0 < len ∧ len < 500 then
              let subdomain := start.take len.toNat
              if (strstr subdomain domain).isSome then
                add_result subdomain 1 (some FROM_CERT) 0 st
              else st
            else st
          ct_loop domain fuel end_ st1

/-- The function `query_certificate_transparency`. `curl` is what
`curl_easy_init` returned: `none` for NULL, in which case the function
returns at once (line 336), otherwise the handle, given by the reply its
transfer will get. The body is scanned when the transfer succeeded and data
arrived, and `rate_limit(1)` is called in either case (line 402). Every
round of the loop moves `ptr` forward, so as many rounds as the body has
characters, plus one, are enough. -/
def query_certificate_transparency (w : World) (curl : Option CtReply) (domain : List Char)
    (st : ScanState) : Option ScanState :=
  match curl with
  | none => some st
  | some reply =>
    let scanned :=
      match reply.res_ok, reply.data with
      | true, some data => ct_loop domain ((cstr data).length + 1) (cstr data) st
      | _, _ => some st
    match scanned with
    | none => none
    | some st1 => rate_limit w 1 st1

/-! ## `scan_with_wordlist` (lines 406-490) -/

/-- What one `curl_easy_perform` of the wordlist scan gave: `ok` with the
`long` response code when it returned `CURLE_OK`, `failed` otherwise. -/
inductive ProbeOutcome where
  | ok (http_code : Int)
  | failed
  deriving DecidableEq, Repr

/-- The transport behind the curl handle of the wordlist scan: the outcome
of the `i`-th transfer (counted from 0) for the URL it was given. -/
structure Transport where
  perform : Nat → List Char → ProbeOutcome

/-- The address text `"N/A"` of a probed record. -/
def NOT_AVAILABLE : List Char := "N/A".toList

/-- The host name built at line 437: `"%s.%s"` of the word and the domain in
a buffer of 512. -/
def probe_subdomain (word domain : List Char) : List Char :=
  snprintf 512 (word ++ ".".toList ++ domain)

/-- The URL built at line 440: `"https://%s"` of the host name in a buffer of
1024. -/
def probe_url (subdomain : List Char) : List Char :=
  snprintf 1024 ("https://".toList ++ subdomain)

/-- Lines 445-462: the record stored for one transfer outcome. The `long`
code becomes the `int` argument of `add_result`. -/
def record_probe (subdomain : List Char) (outcome : ProbeOutcome) (st : ScanState) :
    ScanState :=
  match outcome with
  | ProbeOutcome.ok http_code =>
    if http_code < 400 then
      add_result subdomain 1 (some NOT_AVAILABLE) (toInt32 http_code) st
    else
      add_result subdomain 0 (some NOT_AVAILABLE) (toInt32 http_code) st
  | ProbeOutcome.failed => add_result subdomain 0 (some NOT_AVAILABLE) 0 st

/-- Lines 470-477: after every tenth test the clock is read and the progress
line is printed. -/
def show_progress (w : World) (tested : Int) (st : ScanState) : ScanState :=
  if tested % 10 = 0 then
    { st with
      time_calls := st.time_calls + 1
      trace := st.trace ++ [Event.progress tested (w.time st.time_calls - st.scan_start_time)] }
  else st

/-- The `for` loop of lines 433-478 from index `i`, with `rest` the words
`wordlist[i], wordlist[i+1], ...` still to test; `tested` is `i + 1` inside
the body. The local counter `found` only feeds printed messages and is left
out. -/
def wordlist_loop (w : World) (tr : Transport) (domain : List Char) (wordlist_size : Int) :
    Nat → List (List Char) → ScanState → Option ScanState
  | _, [], st => some st
  | i, word :: rest, st =>
    let tested : Int := (i : Int) + 1
    let subdomain := probe_subdomain word domain
    let st1 := record_probe subdomain (tr.perform i (probe_url subdomain)) st
    let limited := if (i : Int) < wordlist_size - 1 then rate_limit w (tested + 1) st1 else some st1
    match limited with
    | none => none
    | some st2 => wordlist_loop w tr domain wordlist_size (i + 1) rest (show_progress w tested st2)

/-- The function `scan_with_wordlist` over the global `wordlist` (with
`wordlist_size` its length). `curl` is what `curl_easy_init` returned:
`none` for NULL, in which case the function returns at once (line 420),
otherwise the handle, given by the transport behind it. -/
def scan_with_wordlist (w : World) (curl : Option Transport) (domain : List Char)
    (wordlist : List (List Char)) (st : ScanState) : Option ScanState :=
  match curl with
  | none => some st
  | some tr => wordlist_loop w tr domain (wordlist.length : Int) 0 wordlist st

/-! ## `print_summary` (lines 493-515) -/

/-- The figures `print_summary` reports: the number of records with a non-zero
`found`, `result_count`, `total_requests_made` and the duration in seconds.
(The rate it prints is a `float` and is left out.) -/
structure Summary where
  found : Int
  total : Int
  total_requests : Int
  total_seconds : Int
  deriving DecidableEq, Repr

/-- The counting loop of lines 497-500. -/
def count_found : List SubdomainResult → Int
  | [] => 0
  | r :: rs => if r.found ≠ 0 then count_found rs + 1 else count_found rs

/-- The function `print_summary`: it reads the clock once and reports the
figures of lines 509-515. -/
def print_summary (w : World) (st : ScanState) : Summary × ScanState :=
  ({ found := count_found st.results
     total := st.result_count
     total_requests := st.total_requests_made
     total_seconds := w.time st.time_calls - st.scan_start_time },
   { st with time_calls := st.time_calls + 1 })

/-- The records listed under the successful discoveries (lines 521-531). -/
def discoveries (st : ScanState) : List SubdomainResult :=
  st.results.filter (fun r => r.found != 0)

/-! ## `load_wordlist` (lines 80-178) -/

/-- The characters one `fgets` call stores when `room` characters fit: it
stops after a line feed, at the end of the stream, or when the room is used
up. Gives what was stored and the rest of the stream. -/
def fgets_take : Nat → List Char → List Char × List Char
  | 0, stream => ([], stream)
  | _ + 1, [] => ([], [])
  | room + 1, c :: cs =>
    if c = NEWLINE then ([c], cs)
    else ((fgets_take room cs).1.cons c, (fgets_take room cs).2)

/-- `fgets(buffer, size, file)`: `none` (NULL) at the end of the stream,
otherwise the stored characters and the rest of the stream. -/
def fgets (size : Nat) (stream : List Char) : Option (List Char × List Char) :=
  match stream with
  | [] => none
  | _ :: _ => some (fgets_take (size - 1) stream)

/-- The counting loop of lines 134-136. `none` when `fuel` rounds did not
reach the end of the stream. -/
def count_lines : Nat → List Char → Option Int
  | 0, _ => none
  | fuel + 1, stream =>
    match fgets 256 stream with
    | none => some 0
    | some (_, rest) => (count_lines fuel rest).map (fun n => n + 1)

/-- The reading loop of lines 155-171, with the words stored so far (the
index `i` is their number). The line feed is cut off; empty lines and lines
starting with the hash character are skipped. `none` when `fuel` rounds did
not finish the loop. -/
def read_words (count : Int) : Nat → List Char → List (List Char) → Option (List (List Char))
  | 0, _, _ => none
  | fuel + 1, stream, words =>
    match fgets 256 stream with
    | none => some words
    | some (buffer, rest) =>
      if (words.length : Int) < count then
        let line := (cstr buffer).takeWhile (fun c => c != NEWLINE)
        if line.length = 0 ∨ line.head? = some HASH then read_words count fuel rest words
        else read_words count fuel rest (words ++ [line])
      else some words

/-- The function `load_wordlist` on the stream that its `fopen` calls end up
with (the named file, or the default list it has just written), `none` when
neither could be opened. Gives the return value and the globals `wordlist`
(with `wordlist_size` its length). Every `fgets` call that stores something
consumes a character, so one round more than the stream has characters is
enough for each loop. -/
def load_wordlist (file : Option (List Char)) : Option (Int × List (List Char)) :=
  match file with
  | none => some (0, [])
  | some stream =>
    match count_lines (stream.length + 1) stream with
    | none => none
    | some count =>
      if count = 0 then some (0, [])
      else (read_words count (stream.length + 1) stream []).map (fun words => (1, words))

/-! ## `main` (lines 553-632) -/

/-- What `main` is given once the argument count is accepted: the domain
`argv[1]`, the wordlist stream (see `load_wordlist`), the value
`check_tor_connection` returns, what `curl_easy_init` gives for the crt.sh
request, the first character `scanf` stored for the prompt (`none` when it
stored nothing), and what `curl_easy_init` gives for the wordlist scan. -/
structure Run where
  domain : List Char
  wordlist_file : Option (List Char)
  tor_active : Bool
  crt_sh : Option CtReply
  answer : Option Char
  transport : Option Transport

/-- What `main` leaves behind: its return value, the final globals, the
summary when it got as far as `print_summary`, and the loaded wordlist. -/
structure Outcome where
  exit_code : Int
  state : ScanState
  summary : Option Summary
  wordlist : List (List Char)

/-- The globals after the initialisation of lines 578-581: the clock is read
once for `srand` and once for `scan_start_time`. -/
def initial_state (w : World) : ScanState :=
  { results := []
    total_requests_made := 0
    scan_start_time := w.time 1
    rand_calls := 0
    time_calls := 2
    trace := [] }

/-- The function `main` from line 567 on. `none` when a step is undefined
(`scanf` stored nothing and `response[0]` is read all the same). -/
def main (w : World) (run : Run) : Option Outcome :=
  let st0 := initial_state w
  match load_wordlist run.wordlist_file with
  | none => none
  | some (loaded, wordlist) =>
    if loaded = 0 then some ⟨1, st0, none, wordlist⟩
    else if run.tor_active = false then some ⟨1, st0, none, wordlist⟩
    else
      match query_certificate_transparency w run.crt_sh run.domain st0 with
      | none => none
      | some st1 =>
        match run.answer with
        | none => none
        | some c =>
          let scanned :=
            if c = 'y' ∨ c = 'Y' then
              scan_with_wordlist w run.transport run.domain wordlist st1
            else some st1
          match scanned with
          | none => none
          | some st2 =>
            some ⟨0, (print_summary w st2).2, some (print_summary w st2).1, wordlist⟩

/-! ## Vocabulary for stating properties of the functions above -/

/-- The request numbers of the delays in a trace, in order; `rate_limit`
emits exactly one delay per call, carrying its argument. -/
def delay_requests : List Event → List Int
  | [] => []
  | Event.delay request_num _ :: es => request_num :: delay_requests es
  | Event.current_rate _ _ :: es => delay_requests es
  | Event.progress _ _ :: es => delay_requests es

/-- The record line 381 stores for an accepted candidate. -/
def cert_record (candidate : List Char) : SubdomainResult :=
  { subdomain := candidate.take 255, found := 1, ip := FROM_CERT.take 45, http_status := 0 }

/-- The record lines 445-462 store for a host name and its transfer outcome. -/
def probe_record (subdomain : List Char) (outcome : ProbeOutcome) : SubdomainResult :=
  match outcome with
  | ProbeOutcome.ok http_code =>
    { subdomain := subdomain.take 255
      found := if http_code < 400 then 1 else 0
      ip := NOT_AVAILABLE.take 45
      http_status := toInt32 http_code }
  | ProbeOutcome.failed =>
    { subdomain := subdomain.take 255, found := 0, ip := NOT_AVAILABLE.take 45, http_status := 0 }

/-- The outcome of the `i`-th transfer of a scan of `domain` when the word
tested there is `word`. -/
def probe_outcome (tr : Transport) (domain : List Char) (i : Nat) (word : List Char) :
    ProbeOutcome :=
  tr.perform i (probe_url (probe_subdomain word domain))

/-- The records of the words `rest` tested from index `i` on, in order. -/
def probe_records (tr : Transport) (domain : List Char) : Nat → List (List Char) →
    List SubdomainResult
  | _, [] => []
  | i, word :: rest =>
    probe_record (probe_subdomain word domain) (probe_outcome tr domain i word)
      :: probe_records tr domain (i + 1) rest

/-- The candidates the loop of lines 364-386 extracts from the position
`ptr`: every `subdomain` buffer it fills (those with `0 < len < 500`), in
order, before the test against the domain. -/
def ct_extracted : Nat → List Char → List (List Char)
  | 0, _ => []
  | fuel + 1, ptr =>
    match strstr ptr NAME_VALUE with
    | none => []
    | some p =>
      match strchr (p.drop 10) QUOTE with
      | none => []
      | some q =>
        let start := q.drop 1
        match strchr start QUOTE with
        | none => []
        | some end_ =>
          let len := toInt32 ((start.length : Int) - (end_.length : Int))
          if 0 < len ∧ len < 500 then
            start.take len.toNat :: ct_extracted fuel end_
          else ct_extracted fuel end_

/-- The candidates the scan of lines 364-386 extracts from a received body:
the body is read as a C string, and one round more than it has characters is
allowed for. -/
def ct_candidates (body : List Char) : List (List Char) :=
  ct_extracted ((cstr body).length + 1) (cstr body)

/-- The records of the extracted candidates that contain `domain`, in order;
none unless the transfer succeeded and data arrived. -/
def ct_stored (domain : List Char) (reply : CtReply) : List SubdomainResult :=
  match reply.res_ok, reply.data with
  | true, some data =>
    ((ct_candidates data).filter (fun c => decide (domain <:+: c))).map cert_record
  | _, _ => []

/-! ## Inputs of the scenarios the claims name -/

/-- A world whose `rand()` and clock always give 0. -/
def quiet_world : World := { rand := fun _ => 0, time := fun _ => 0 }

/-- A world whose `k`-th `rand()` gives `1000 * k + 7` and whose clock
advances by 5 seconds per reading. -/
def busy_world : World := { rand := fun k => 1000 * k + 7, time := fun k => 5 * (k : Int) }

/-- The domain `example.com`. -/
def example_com : List Char := "example.com".toList

/-- The domain `test.org`. -/
def test_org : List Char := "test.org".toList

/-- A crt.sh body of three JSON fields `"name_value":"v"`; two of the values
contain `example.com`, one does not. -/
def body_three_fields : List Char :=
  "[\x7b\"name_value\":\"www.example.com\"\x7d,\x7b\"name_value\":\"mail.example.com\"\x7d,\x7b\"name_value\":\"other.org\"\x7d]".toList

/-- A body in which the marker is followed by a quoted value of 262
characters ending in `.example.com`. -/
def body_long_value : List Char :=
  NAME_VALUE ++ [QUOTE] ++ List.replicate 250 'a' ++ ".example.com".toList ++ [QUOTE]

/-- A body in which the marker is followed by the quoted value
`notexample.com.evil.org`. -/
def body_evil : List Char :=
  NAME_VALUE ++ [QUOTE] ++ "notexample.com.evil.org".toList ++ [QUOTE]

/-- A transfer that succeeded and delivered `body`. -/
def reply_with (body : List Char) : CtReply := { res_ok := true, data := some body }

/-- The stub transport answering 200, 301 and then nothing. -/
def stub_200_301_timeout : Transport :=
  { perform := fun i _ =>
      match i with
      | 0 => ProbeOutcome.ok 200
      | 1 => ProbeOutcome.ok 301
      | _ => ProbeOutcome.failed }

/-- The stub transport answering 404 and then 200. -/
def stub_404_200 : Transport :=
  { perform := fun i _ =>
      match i with
      | 0 => ProbeOutcome.ok 404
      | _ => ProbeOutcome.ok 200 }

/-- The candidate list `www`, `mail`, `doesnotexist123`. -/
def words_www_mail_none : List (List Char) :=
  ["www".toList, "mail".toList, "doesnotexist123".toList]

/-- The end-to-end scenario: domain `test.org`, a wordlist file with the
lines `api` and `vpn`, Tor active, a crt.sh body without the marker, the
answer `y`, and probes answered 404 and 200. -/
def end_to_end_run : Run :=
  { domain := test_org
    wordlist_file := some "api\nvpn\n".toList
    tor_active := true
    crt_sh := some (reply_with "[]".toList)
    answer := some 'y'
    transport := some stub_404_200 }

/-- The end-to-end scenario with a wordlist file that holds one comment line
and one empty line. -/
def comment_only_run : Run :=
  { end_to_end_run with wordlist_file := some "# subdomains\n\n".toList }

/-! ## Lemmas on the delay computation -/

theorem clamp_delay_ge (d : Int) : MIN_DELAY_MS ≤ clamp_delay d := by
  unfold clamp_delay MIN_DELAY_MS MAX_DELAY_MS
  dsimp only
  split_ifs <;> omega

theorem clamp_delay_le (d : Int) : clamp_delay d ≤ MAX_DELAY_MS := by
  unfold clamp_delay MIN_DELAY_MS MAX_DELAY_MS
  dsimp only
  split_ifs <;> omega

theorem base_delay_ms_ge_four (target : Int) (h0 : 0 < target) (h1 : target ≤ 15000) :
    4 ≤ base_delay_ms target := by
  unfold base_delay_ms
  rw [Int.tdiv_eq_ediv (by norm_num) (le_of_lt h0)]
  exact (Int.le_ediv_iff_mul_le h0).mpr (by omega)

theorem jitter_pos (target : Int) (h0 : 0 < target) (h1 : target ≤ 15000) :
    0 < jitter target := by
  have hb := base_delay_ms_ge_four target h0 h1
  unfold jitter
  rw [Int.tdiv_eq_ediv (by omega) (by norm_num)]
  omega

theorem rate_limit_delay_default (r : Nat) :
    rate_limit_delay REQUESTS_PER_MINUTE r
      = some (clamp_delay (5000 + (Int.tmod (r : Int) 2500 - 1250))) := by
  have hb : base_delay_ms REQUESTS_PER_MINUTE = 5000 := by decide
  have hj : jitter REQUESTS_PER_MINUTE = 1250 := by decide
  have ht : REQUESTS_PER_MINUTE ≠ 0 := by decide
  simp [rate_limit_delay, jitter_offset, hb, hj, ht]

theorem jitter_offset_default (r : Nat) :
    jitter_offset REQUESTS_PER_MINUTE r = (r : Int) % 2500 - 1250 := by
  have hj : jitter REQUESTS_PER_MINUTE = 1250 := by decide
  unfold jitter_offset
  rw [hj, Int.tmod_eq_emod (Int.ofNat_nonneg r) (by norm_num)]
  norm_num

/-! ## Lemmas on the state-passing functions -/

theorem delay_requests_append (xs ys : List Event) :
    delay_requests (xs ++ ys) = delay_requests xs ++ delay_requests ys := by
  induction xs with
  | nil => rfl
  | cons e es ih => cases e <;> simp [delay_requests, ih]

theorem rate_limit_spec (w : World) (request_num : Int) (st : ScanState) :
    ∃ st1, rate_limit w request_num st = some st1
      ∧ st1.results = st.results
      ∧ st1.total_requests_made = st.total_requests_made + 1
      ∧ st1.scan_start_time = st.scan_start_time
      ∧ delay_requests st1.trace = delay_requests st.trace ++ [request_num] := by
  unfold rate_limit
  rw [rate_limit_delay_default]
  refine ⟨_, rfl, rfl, rfl, rfl, ?_⟩
  rw [delay_requests_append]
  split_ifs <;> simp [delay_requests]

theorem record_probe_eq (subdomain : List Char) (outcome : ProbeOutcome) (st : ScanState) :
    record_probe subdomain outcome st
      = { st with results := st.results ++ [probe_record subdomain outcome] } := by
  cases outcome with
  | ok http_code =>
    simp only [record_probe, probe_record, add_result]
    split_ifs <;> rfl
  | failed => rfl

theorem show_progress_spec (w : World) (tested : Int) (st : ScanState) :
    (show_progress w tested st).results = st.results
      ∧ (show_progress w tested st).total_requests_made = st.total_requests_made
      ∧ (show_progress w tested st).scan_start_time = st.scan_start_time
      ∧ delay_requests (show_progress w tested st).trace = delay_requests st.trace := by
  unfold show_progress
  split_ifs
  · refine ⟨rfl, rfl, rfl, ?_⟩
    rw [delay_requests_append]
    simp [delay_requests]
  · exact ⟨rfl, rfl, rfl, rfl⟩

theorem wordlist_loop_spec (w : World) (tr : Transport) (domain : List Char) (n : Int) :
    ∀ (rest : List (List Char)) (i : Nat) (st : ScanState), (i : Int) + rest.length = n →
      ∃ st1, wordlist_loop w tr domain n i rest st = some st1
        ∧ st1.results = st.results ++ probe_records tr domain i rest
        ∧ st1.total_requests_made = st.total_requests_made + ((rest.length - 1 : Nat) : Int)
        ∧ st1.scan_start_time = st.scan_start_time
        ∧ delay_requests st1.trace = delay_requests st.trace
            ++ (List.range (rest.length - 1)).map (fun (j : Nat) => (i : Int) + (j : Int) + 2) := by
  intro rest
  induction rest with
  | nil =>
    intro i st _
    exact ⟨st, rfl, by simp [probe_records], by simp, rfl, by simp⟩
  | cons word rest ih =>
    intro i st h
    have h1 : ((i + 1 : Nat) : Int) + rest.length = n := by
      simp only [List.length_cons] at h
      push_cast at h ⊢
      omega
    rw [wordlist_loop]
    rw [record_probe_eq]
    by_cases hlast : (i : Int) < n - 1
    · rw [if_pos hlast]
      obtain ⟨st2, e2, r2, t2, s2, d2⟩ := rate_limit_spec w ((i : Int) + 1 + 1)
        { st with results := st.results ++
            [probe_record (probe_subdomain word domain)
              (tr.perform i (probe_url (probe_subdomain word domain)))] }
      rw [e2]
      dsimp only
      obtain ⟨p1, p2, p3, p4⟩ := show_progress_spec w ((i : Int) + 1) st2
      obtain ⟨st3, e3, r3, t3, s3, d3⟩ := ih (i + 1) (show_progress w ((i : Int) + 1) st2) h1
      have hlen : rest.length = (rest.length - 1) + 1 := by
        push_cast at h1
        omega
      refine ⟨st3, e3, ?_, ?_, ?_, ?_⟩
      · rw [r3, p1, r2]
        simp [probe_records, probe_outcome]
      · rw [t3, p2, t2]
        simp only [List.length_cons, Nat.add_sub_cancel]
        omega
      · rw [s3, p3, s2]
      · rw [d3, p4, d2]
        simp only [List.length_cons, Nat.add_sub_cancel]
        rw [hlen, List.range_succ_eq_map]
        simp [List.map_map, Function.comp]
        exact ⟨by omega, fun a _ => by omega⟩
    · rw [if_neg hlast]
      dsimp only
      obtain ⟨p1, p2, p3, p4⟩ := show_progress_spec w ((i : Int) + 1)
        { st with results := st.results ++
            [probe_record (probe_subdomain word domain)
              (tr.perform i (probe_url (probe_subdomain word domain)))] }
      obtain ⟨st3, e3, r3, t3, s3, d3⟩ := ih (i + 1) (show_progress w ((i : Int) + 1) _) h1
      have hlen : rest.length = 0 := by
        push_cast at h1
        omega
      refine ⟨st3, e3, ?_, ?_, ?_, ?_⟩
      · rw [r3, p1]
        simp [probe_records, probe_outcome]
      · rw [t3, p2]
        simp [hlen]
      · rw [s3, p3]
      · rw [d3, p4]
        simp [hlen]
theorem strstr_isSome_iff (hay needle : List Char) :
    (strstr hay needle).isSome = true ↔ needle <:+: hay := by
  induction hay with
  | nil =>
    unfold strstr
    cases needle <;> simp
  | cons c cs ih =>
    unfold strstr
    rw [List.infix_cons_iff, ← ih]
    by_cases hp : needle.isPrefixOf (c :: cs) = true
    · rw [if_pos hp]
      simp [List.isPrefixOf_iff_prefix.mp hp]
    · rw [if_neg hp]
      have : ¬ needle <+: c :: cs := fun h => hp (List.isPrefixOf_iff_prefix.mpr h)
      simp [this]

theorem strstr_length (needle : List Char) :
    ∀ (hay p : List Char), strstr hay needle = some p → p.length ≤ hay.length := by
  intro hay
  induction hay with
  | nil =>
    intro p h
    unfold strstr at h
    split_ifs at h
    simp at h
    simp [← h]
  | cons c cs ih =>
    intro p h
    unfold strstr at h
    split_ifs at h
    · simp at h
      simp [← h]
    · have := ih p h
      simp
      omega

theorem strchr_length (ch : Char) :
    ∀ (s q : List Char), strchr s ch = some q → q.length ≤ s.length ∧ 0 < q.length := by
  intro s
  induction s with
  | nil =>
    intro q h
    simp [strchr] at h
  | cons c cs ih =>
    intro q h
    unfold strchr at h
    split_ifs at h
    · simp at h
      simp [← h]
    · have := ih q h
      simp
      omega

theorem add_cert_result (subdomain : List Char) (st : ScanState) :
    add_result subdomain 1 (some FROM_CERT) 0 st
      = { st with results := st.results ++ [cert_record subdomain] } := rfl

theorem filter_infix_cons (domain c : List Char) (cs : List (List Char)) :
    (c :: cs).filter (fun x => decide (domain <:+: x))
      = if domain <:+: c then c :: cs.filter (fun x => decide (domain <:+: x))
        else cs.filter (fun x => decide (domain <:+: x)) := by
  simp [List.filter_cons]

theorem ct_loop_spec (domain : List Char) :
    ∀ (fuel : Nat) (ptr : List Char) (st : ScanState), ptr.length < fuel →
      ct_loop domain fuel ptr st = some { st with results := st.results ++
        ((ct_extracted fuel ptr).filter (fun c => decide (domain <:+: c))).map cert_record } := by
  intro fuel
  induction fuel with
  | zero => intro ptr st h; omega
  | succ fuel ih =>
    intro ptr st hfuel
    unfold ct_loop ct_extracted
    cases hp : strstr ptr NAME_VALUE with
    | none => simp
    | some p =>
      dsimp only
      cases hq : strchr (p.drop 10) QUOTE with
      | none => simp
      | some q =>
        dsimp only
        cases he : strchr (q.drop 1) QUOTE with
        | none => simp
        | some e =>
          dsimp only
          have h1 := strstr_length NAME_VALUE ptr p hp
          have h2 := strchr_length QUOTE _ q hq
          have h3 := strchr_length QUOTE _ e he
          have hlt : e.length < fuel := by
            simp only [List.length_drop] at h2 h3
            omega
          by_cases hlen : 0 < toInt32 ((q.drop 1).length - e.length)
              ∧ toInt32 ((q.drop 1).length - e.length) < 500
          · rw [if_pos hlen, if_pos hlen]
            by_cases hd : (strstr (List.take (toInt32 ((q.drop 1).length - e.length)).toNat (q.drop 1)) domain).isSome = true
            · rw [if_pos hd, ih e _ hlt, add_cert_result]
              have hd2 := (strstr_isSome_iff _ _).mp hd
              rw [filter_infix_cons, if_pos hd2]
              simp only [List.map_cons, List.append_assoc, List.singleton_append]
            · rw [if_neg hd, ih e _ hlt]
              have hd2 : ¬ domain <:+: _ := fun h => hd ((strstr_isSome_iff _ _).mpr h)
              rw [filter_infix_cons, if_neg hd2]
          · rw [if_neg hlen, if_neg hlen, ih e _ hlt]
theorem strstr_suffix (needle : List Char) :
    ∀ (hay p : List Char), strstr hay needle = some p → p <:+ hay := by
  intro hay
  induction hay with
  | nil =>
    intro p h
    unfold strstr at h
    split_ifs at h
    simp only [Option.some.injEq] at h
    rw [← h]
  | cons c cs ih =>
    intro p h
    unfold strstr at h
    split_ifs at h
    · simp only [Option.some.injEq] at h
      rw [← h]
    · exact (ih p h).trans (List.suffix_cons c cs)

theorem strchr_suffix (ch : Char) :
    ∀ (s q : List Char), strchr s ch = some q → q <:+ s := by
  intro s
  induction s with
  | nil =>
    intro q h
    simp [strchr] at h
  | cons c cs ih =>
    intro q h
    unfold strchr at h
    split_ifs at h
    · simp only [Option.some.injEq] at h
      rw [← h]
    · exact (ih q h).trans (List.suffix_cons c cs)

theorem toInt32_le_of_small (d : Int) (h0 : 0 ≤ d) (h1 : 0 < toInt32 d)
    (h2 : toInt32 d < 500) : toInt32 d ≤ d := by
  unfold toInt32 at *
  norm_num at *
  omega

theorem ct_extracted_infix :
    ∀ (fuel : Nat) (ptr c : List Char), c ∈ ct_extracted fuel ptr →
      c <:+: ptr ∧ 0 < c.length ∧ c.length < 500 := by
  intro fuel
  induction fuel with
  | zero => intro ptr c h; simp [ct_extracted] at h
  | succ fuel ih =>
    intro ptr c h
    unfold ct_extracted at h
    cases hp : strstr ptr NAME_VALUE with
    | none => rw [hp] at h; simp at h
    | some p =>
      rw [hp] at h
      dsimp only at h
      cases hq : strchr (p.drop 10) QUOTE with
      | none => rw [hq] at h; simp at h
      | some q =>
        rw [hq] at h
        dsimp only at h
        cases he : strchr (q.drop 1) QUOTE with
        | none => rw [he] at h; simp at h
        | some e =>
          rw [he] at h
          dsimp only at h
          have s1 : p <:+ ptr := strstr_suffix NAME_VALUE ptr p hp
          have s2 : q <:+ p := (strchr_suffix QUOTE _ q hq).trans (List.drop_suffix 10 p)
          have s3 : q.drop 1 <:+ q := List.drop_suffix 1 q
          have s4 : e <:+ q.drop 1 := strchr_suffix QUOTE _ e he
          have hstart : q.drop 1 <:+ ptr := s3.trans (s2.trans s1)
          have hrec : ∀ c, c ∈ ct_extracted fuel e →
              c <:+: ptr ∧ 0 < c.length ∧ c.length < 500 := by
            intro c hc
            obtain ⟨h1, h2, h3⟩ := ih e c hc
            exact ⟨h1.trans (s4.trans hstart).isInfix, h2, h3⟩
          split_ifs at h with hlen
          · rcases List.mem_cons.mp h with hc | hc
            · subst hc
              refine ⟨(List.take_prefix _ _).isInfix.trans hstart.isInfix, ?_, ?_⟩
              · have hle := s4.length_le
                have hk := toInt32_le_of_small _ (by omega) hlen.1 hlen.2
                rw [List.length_take]
                omega
              · have hle := s4.length_le
                have hk := toInt32_le_of_small _ (by omega) hlen.1 hlen.2
                rw [List.length_take]
                omega
            · exact hrec c hc
          · exact hrec c h

theorem query_ct_spec (w : World) (reply : CtReply) (domain : List Char) (st : ScanState) :
    ∃ st1, query_certificate_transparency w (some reply) domain st = some st1
      ∧ st1.results = st.results ++ ct_stored domain reply
      ∧ st1.total_requests_made = st.total_requests_made + 1
      ∧ st1.scan_start_time = st.scan_start_time
      ∧ delay_requests st1.trace = delay_requests st.trace ++ [1] := by
  obtain ⟨res_ok, data⟩ := reply
  unfold query_certificate_transparency ct_stored
  cases res_ok with
  | false =>
    obtain ⟨st1, e, r, t, s, d⟩ := rate_limit_spec w 1 st
    exact ⟨st1, by simpa using e, by simpa using r, t, s, d⟩
  | true =>
    cases data with
    | none =>
      obtain ⟨st1, e, r, t, s, d⟩ := rate_limit_spec w 1 st
      exact ⟨st1, by simpa using e, by simpa using r, t, s, d⟩
    | some body =>
      dsimp only
      rw [ct_loop_spec domain _ _ st (Nat.lt_succ_self _)]
      obtain ⟨st1, e, r, t, s, d⟩ := rate_limit_spec w 1
        { st with results := st.results ++
            ((ct_extracted ((cstr body).length + 1) (cstr body)).filter
              (fun c => decide (domain <:+: c))).map cert_record }
      exact ⟨st1, e, r, t, s, d⟩

theorem query_ct_no_handle (w : World) (domain : List Char) (st : ScanState) :
    query_certificate_transparency w none domain st = some st := rfl

theorem scan_with_wordlist_spec (w : World) (tr : Transport) (domain : List Char)
    (wordlist : List (List Char)) (st : ScanState) :
    ∃ st1, scan_with_wordlist w (some tr) domain wordlist st = some st1
      ∧ st1.results = st.results ++ probe_records tr domain 0 wordlist
      ∧ st1.total_requests_made = st.total_requests_made + ((wordlist.length - 1 : Nat) : Int)
      ∧ st1.scan_start_time = st.scan_start_time
      ∧ delay_requests st1.trace = delay_requests st.trace
          ++ (List.range (wordlist.length - 1)).map (fun (j : Nat) => (j : Int) + 2) := by
  unfold scan_with_wordlist
  obtain ⟨st1, e, r, t, s, d⟩ :=
    wordlist_loop_spec w tr domain (wordlist.length : Int) wordlist 0 st (by simp)
  refine ⟨st1, e, r, t, s, ?_⟩
  rw [d]
  simp

theorem scan_with_wordlist_no_handle (w : World) (domain : List Char)
    (wordlist : List (List Char)) (st : ScanState) :
    scan_with_wordlist w none domain wordlist st = some st := rfl

theorem probe_records_length (tr : Transport) (domain : List Char) :
    ∀ (rest : List (List Char)) (i : Nat), (probe_records tr domain i rest).length = rest.length := by
  intro rest
  induction rest with
  | nil => intro i; rfl
  | cons word rest ih => intro i; simp [probe_records, ih]

theorem probe_records_get (tr : Transport) (domain : List Char) :
    ∀ (rest : List (List Char)) (i k : Nat),
      (probe_records tr domain i rest)[k]? = (rest[k]?).map (fun word =>
        probe_record (probe_subdomain word domain) (probe_outcome tr domain (i + k) word)) := by
  intro rest
  induction rest with
  | nil => intro i k; simp [probe_records]
  | cons word rest ih =>
    intro i k
    cases k with
    | zero => simp [probe_records]
    | succ k =>
      simp only [probe_records, List.getElem?_cons_succ]
      rw [ih (i + 1) k]
      have : i + 1 + k = i + (k + 1) := by omega
      rw [this]

theorem toInt32_of_int (c : Int) (h0 : -(2 ^ 31) ≤ c) (h1 : c < 2 ^ 31) : toInt32 c = c := by
  unfold toInt32
  norm_num at h0 h1 ⊢
  omega

theorem probe_record_subdomain (word domain : List Char) (o : ProbeOutcome) :
    (probe_record (probe_subdomain word domain) o).subdomain
      = (word ++ ".".toList ++ domain).take 255 := by
  cases o <;> simp [probe_record, probe_subdomain, snprintf, List.take_take]

theorem probe_record_found_iff (s : List Char) (o : ProbeOutcome) :
    (probe_record s o).found = 1 ↔ ∃ c, o = ProbeOutcome.ok c ∧ c < 400 := by
  cases o with
  | ok c =>
    simp only [probe_record]
    by_cases h : c < 400
    · simp [h]
    · simp [h]
  | failed => simp [probe_record]

theorem probe_record_refused (s : List Char) (c : Int) (h : 400 ≤ c) :
    (probe_record s (ProbeOutcome.ok c)).found = 0
      ∧ (probe_record s (ProbeOutcome.ok c)).http_status = toInt32 c := by
  have hn : ¬ c < 400 := by omega
  simp [probe_record, hn]
theorem main_spec (w : World) (run : Run) (wordlist : List (List Char))
    (reply : CtReply) (tr : Transport)
    (hload : load_wordlist run.wordlist_file = some (1, wordlist))
    (htor : run.tor_active = true) (hct : run.crt_sh = some reply)
    (hans : run.answer = some 'y' ∨ run.answer = some 'Y')
    (htr : run.transport = some tr) :
    ∃ out, main w run = some out
      ∧ out.exit_code = 0
      ∧ out.wordlist = wordlist
      ∧ out.state.results
          = ct_stored run.domain reply ++ probe_records tr run.domain 0 wordlist
      ∧ out.state.total_requests_made = 1 + ((wordlist.length - 1 : Nat) : Int)
      ∧ delay_requests out.state.trace
          = 1 :: (List.range (wordlist.length - 1)).map (fun (j : Nat) => (j : Int) + 2)
      ∧ ∃ s, out.summary = some s
          ∧ s.found = count_found out.state.results
          ∧ s.total = (out.state.results.length : Int)
          ∧ s.total_requests = out.state.total_requests_made := by
  obtain ⟨st1, e1, r1, t1, _, d1⟩ :=
    query_ct_spec w reply run.domain (initial_state w)
  obtain ⟨st2, e2, r2, t2, _, d2⟩ :=
    scan_with_wordlist_spec w tr run.domain wordlist st1
  unfold main
  rw [hload, hct, htr]
  dsimp only
  rw [if_neg (by decide), if_neg (by simp [htor]), e1]
  dsimp only
  have hyes : ∃ c, run.answer = some c ∧ (c = 'y' ∨ c = 'Y') := by
    rcases hans with h | h
    · exact ⟨_, h, Or.inl rfl⟩
    · exact ⟨_, h, Or.inr rfl⟩
  obtain ⟨c, hc, hy⟩ := hyes
  rw [hc]
  dsimp only
  rw [if_pos hy, e2]
  refine ⟨_, rfl, rfl, rfl, ?_, ?_, ?_, _, rfl, rfl, rfl, rfl⟩
  · simp only [print_summary]
    rw [r2, r1]
    simp [initial_state]
  · simp only [print_summary]
    rw [t2, t1]
    simp [initial_state]
  · simp only [print_summary]
    rw [d2, d1]
    simp [initial_state, delay_requests]

/-! ## C1 -/

/-- C1 (as amended): for every target rate with `0 < target ≤ 15000` and
every draw `r` of `rand()`, `rate_limit` computes a delay, and that delay is
at least `MIN_DELAY_MS = 4000` and at most `MAX_DELAY_MS = 8000`. -/
theorem rate_limit_delay_in_band (target : Int) (r : Nat)
    (h0 : 0 < target) (h1 : target ≤ 15000) :
    ∃ d, rate_limit_delay target r = some d ∧ MIN_DELAY_MS ≤ d ∧ d ≤ MAX_DELAY_MS := by
  have hj := jitter_pos target h0 h1
  refine ⟨clamp_delay (base_delay_ms target + jitter_offset target r), ?_,
    clamp_delay_ge _, clamp_delay_le _⟩
  unfold rate_limit_delay
  rw [if_neg (by omega), if_neg (by omega)]

/-- C1 witness: the source's own rate, 12 requests per minute, with draw 7. -/
theorem rate_limit_delay_in_band_witness :
    ∃ d, rate_limit_delay 12 7 = some d ∧ MIN_DELAY_MS ≤ d ∧ d ≤ MAX_DELAY_MS :=
  rate_limit_delay_in_band 12 7 (by decide) (by decide)

/-- C1 counterexample: at the positive target rate 15001 the base delay is 3,
the jitter is 0 and line 189 takes `rand() % 0`: no delay is computed, for
the draw 0 as for any other. -/
theorem rate_limit_delay_none_at_15001 :
    (0 : Int) < 15001 ∧
      ¬ ∃ d, rate_limit_delay 15001 0 = some d ∧ MIN_DELAY_MS ≤ d ∧ d ≤ MAX_DELAY_MS := by
  refine ⟨by decide, ?_⟩
  have h : rate_limit_delay 15001 0 = none := by decide
  rw [h]
  simp

/-! ## C2 -/

/-- C2 (the code at the failing input): for the body `body_three_fields`,
three JSON fields `"name_value":"v"` of which two values contain
`example.com`, the candidate extracted at each marker is the single colon
between the key's closing quote and the value's opening quote, and
`query_certificate_transparency` with a successful transfer of that body
returns leaving `results` as it was: it stores nothing, not two records. -/
theorem query_ct_json_fields_store_nothing (w : World) (st : ScanState) :
    ct_candidates body_three_fields = [":".toList, ":".toList, ":".toList]
      ∧ ∃ st1, query_certificate_transparency w (some (reply_with body_three_fields)) example_com st
            = some st1
          ∧ st1.results = st.results := by
  refine ⟨by decide, ?_⟩
  obtain ⟨st1, e, r, _⟩ :=
    query_ct_spec w (reply_with body_three_fields) example_com st
  refine ⟨st1, e, ?_⟩
  rw [r]
  have h : ct_stored example_com (reply_with body_three_fields) = [] := by decide
  rw [h, List.append_nil]

/-! ## C3 -/

/-- C3: for every world, domain, candidate list and transport behind the
curl handle, `scan_with_wordlist` returns having appended exactly one record
per candidate, in input order. The `i`-th record holds the host name
`word.domain` (cut to 255 characters); its `found` is 1 exactly when the
`i`-th transfer gave a response code below 400; a code of 400 or more gives
`found = 0` and that code as `http_status` (converted to `int`, which leaves
every code below `2 ^ 31` as it is); no response gives `found = 0` and
`http_status = 0`. For `www`, `mail`, `doesnotexist123` against `example.com`
with outcomes 200, 301, timeout and an empty store, the `found` flags are
`[1, 1, 0]`. -/
theorem scan_with_wordlist_classifies :
    (∀ (w : World) (tr : Transport) (domain : List Char) (wordlist : List (List Char))
        (st : ScanState),
      ∃ st1 added, scan_with_wordlist w (some tr) domain wordlist st = some st1
        ∧ st1.results = st.results ++ added
        ∧ added.length = wordlist.length
        ∧ ∀ (i : Nat) (word : List Char) (r : SubdomainResult),
            wordlist[i]? = some word → added[i]? = some r →
              r.subdomain = (word ++ ".".toList ++ domain).take 255
              ∧ (r.found = 1 ↔ ∃ c, probe_outcome tr domain i word = ProbeOutcome.ok c ∧ c < 400)
              ∧ (∀ c, probe_outcome tr domain i word = ProbeOutcome.ok c → 400 ≤ c →
                  r.found = 0 ∧ r.http_status = toInt32 c ∧ (c < 2 ^ 31 → r.http_status = c))
              ∧ (probe_outcome tr domain i word = ProbeOutcome.failed →
                  r.found = 0 ∧ r.http_status = 0))
    ∧ (∀ (w : World) (st : ScanState), st.results = [] →
        ∃ st1, scan_with_wordlist w (some stub_200_301_timeout) example_com
              words_www_mail_none st = some st1
          ∧ st1.results.map (fun r => r.found) = [1, 1, 0]
          ∧ st1.results.map (fun r => r.subdomain)
              = ["www.example.com".toList, "mail.example.com".toList,
                 "doesnotexist123.example.com".toList]) := by
  constructor
  · intro w tr domain wordlist st
    obtain ⟨st1, e, r, _, _, _⟩ := scan_with_wordlist_spec w tr domain wordlist st
    refine ⟨st1, probe_records tr domain 0 wordlist, e, r, probe_records_length _ _ _ _, ?_⟩
    intro i word rec hw hr
    rw [probe_records_get, hw] at hr
    simp only [Option.map_some', Option.some.injEq, Nat.zero_add] at hr
    subst hr
    refine ⟨probe_record_subdomain _ _ _, probe_record_found_iff _ _, ?_, ?_⟩
    · intro c hc h400
      rw [hc]
      obtain ⟨f, s⟩ := probe_record_refused (probe_subdomain word domain) c h400
      refine ⟨f, s, fun hlt => ?_⟩
      rw [s]
      exact toInt32_of_int c (by omega) hlt
    · intro hc
      rw [hc]
      exact ⟨rfl, rfl⟩
  · intro w st hst
    obtain ⟨st1, e, r, _, _, _⟩ :=
      scan_with_wordlist_spec w stub_200_301_timeout example_com words_www_mail_none st
    refine ⟨st1, e, ?_, ?_⟩
    · rw [r, hst]
      decide
    · rw [r, hst]
      decide

/-- C3 witness: the stub transport answering 200, 301, timeout, scanned from
the initial state of the quiet world. -/
theorem scan_with_wordlist_classifies_witness :
    ∃ st1 added, scan_with_wordlist quiet_world (some stub_200_301_timeout) example_com
          words_www_mail_none (initial_state quiet_world) = some st1
        ∧ st1.results = (initial_state quiet_world).results ++ added
        ∧ added.length = words_www_mail_none.length
        ∧ added.map (fun r => r.found) = [1, 1, 0] := by
  obtain ⟨st1, added, e, r, l, _⟩ := scan_with_wordlist_classifies.1 quiet_world
    stub_200_301_timeout example_com words_www_mail_none (initial_state quiet_world)
  obtain ⟨st2, e2, f2, _⟩ := scan_with_wordlist_classifies.2 quiet_world
    (initial_state quiet_world) rfl
  rw [e] at e2
  cases e2
  refine ⟨st1, added, e, r, l, ?_⟩
  rw [r] at f2
  simpa [initial_state] using f2

/-! ## C4 -/

/-- C4 (as amended): in the end-to-end scan with domain `test.org`, the
wordlist `api`, `vpn`, a log phase that stores nothing and probes answered
404 and 200 in that order, `main` returns 0 and the summary reports
`found = 1` and `total = 2`; the two records are `api.test.org` with
`found = 0` and status 404 and `vpn.test.org` with `found = 1` and status
200, so the single discovery is `vpn.test.org` with status 200. This holds
for every sequence of `rand()` draws and clock readings. -/
theorem end_to_end_summary (w : World) :
    ∃ out s, main w end_to_end_run = some out
      ∧ out.exit_code = 0
      ∧ out.summary = some s
      ∧ s.found = 1
      ∧ s.total = 2
      ∧ out.state.results =
          [{ subdomain := "api.test.org".toList, found := 0, ip := "N/A".toList, http_status := 404 },
           { subdomain := "vpn.test.org".toList, found := 1, ip := "N/A".toList, http_status := 200 }]
      ∧ discoveries out.state =
          [{ subdomain := "vpn.test.org".toList, found := 1, ip := "N/A".toList, http_status := 200 }] := by
  obtain ⟨out, e, x, _, r, _, _, s, hs, f, t, _⟩ :=
    main_spec w end_to_end_run ["api".toList, "vpn".toList] (reply_with "[]".toList)
      stub_404_200 (by decide) rfl rfl (Or.inl rfl) rfl
  have hr : ct_stored end_to_end_run.domain (reply_with "[]".toList)
      ++ probe_records stub_404_200 end_to_end_run.domain 0
          ["api".toList, "vpn".toList]
      = [{ subdomain := "api.test.org".toList, found := 0, ip := "N/A".toList, http_status := 404 },
         { subdomain := "vpn.test.org".toList, found := 1, ip := "N/A".toList, http_status := 200 }] := by
    decide
  rw [hr] at r
  refine ⟨out, s, e, x, hs, ?_, ?_, r, ?_⟩
  · rw [f, r]
    decide
  · rw [t, r]
    rfl
  · unfold discoveries
    rw [r]
    decide

/-- C4 counterexample: in the end-to-end scan (quiet world) `main` does
return, its only discovery is `vpn.test.org`, and so it is not the case that
the summary reports `found = 1`, `total = 2` with the single found record
being `api.test.org` with status 200. -/
theorem end_to_end_found_is_not_api :
    (∃ out, main quiet_world end_to_end_run = some out
        ∧ (discoveries out.state).map (fun x => x.subdomain) = ["vpn.test.org".toList])
    ∧ ¬ ∃ out s r, main quiet_world end_to_end_run = some out
        ∧ out.summary = some s ∧ s.found = 1 ∧ s.total = 2
        ∧ discoveries out.state = [r]
        ∧ r.subdomain = "api.test.org".toList ∧ r.http_status = 200 := by
  have h : (main quiet_world end_to_end_run).map (fun o => (discoveries o.state).map
      (fun x => x.subdomain)) = some ["vpn.test.org".toList] := by decide
  constructor
  · cases hm : main quiet_world end_to_end_run with
    | none => rw [hm] at h; cases h
    | some out =>
      rw [hm] at h
      simp only [Option.map_some', Option.some.injEq] at h
      exact ⟨out, rfl, h⟩
  · rintro ⟨out, s, r, hm, _, _, _, hd, hsub, _⟩
    rw [hm] at h
    simp only [Option.map_some', Option.some.injEq] at h
    rw [hd] at h
    simp only [List.map_cons, List.map_nil, List.cons.injEq, and_true] at h
    rw [hsub] at h
    exact absurd h (by decide)

/-! ## C5 -/

/-- C5 (as amended): for every run of `main` that loads the candidates
`wordlist`, finds Tor active, is given a curl handle by `curl_easy_init` both
for the crt.sh request of the log phase and for the wordlist scan, and is
answered `y` or `Y` at the prompt, `total_requests_made` starts at 0, counts
the `rate_limit` calls made, and at the end of the scan equals
`1 + (N - 1)` with `N` the number of candidates (truncated subtraction): `N`
whenever there is at least one candidate, and 1 when there is none. -/
theorem total_requests_after_scan (w : World) (run : Run) (wordlist : List (List Char))
    (reply : CtReply) (tr : Transport)
    (hload : load_wordlist run.wordlist_file = some (1, wordlist))
    (htor : run.tor_active = true) (hct : run.crt_sh = some reply)
    (hans : run.answer = some 'y' ∨ run.answer = some 'Y')
    (htr : run.transport = some tr) :
    (initial_state w).total_requests_made = 0
      ∧ ∃ out, main w run = some out
        ∧ out.state.total_requests_made = ((delay_requests out.state.trace).length : Int)
        ∧ out.state.total_requests_made = 1 + ((wordlist.length - 1 : Nat) : Int)
        ∧ (wordlist ≠ [] → out.state.total_requests_made = (wordlist.length : Int)) := by
  obtain ⟨out, e, _, _, _, t, d, _⟩ :=
    main_spec w run wordlist reply tr hload htor hct hans htr
  refine ⟨rfl, out, e, ?_, t, ?_⟩
  · rw [t, d]
    simp
    omega
  · intro hne
    rw [t]
    have : 0 < wordlist.length := List.length_pos.mpr hne
    omega

/-- C5 witness: the end-to-end run with the two candidates `api` and `vpn`. -/
theorem total_requests_after_scan_witness :
    (initial_state quiet_world).total_requests_made = 0
      ∧ ∃ out, main quiet_world end_to_end_run = some out
        ∧ out.state.total_requests_made = ((delay_requests out.state.trace).length : Int)
        ∧ out.state.total_requests_made
            = 1 + (((["api".toList, "vpn".toList] : List (List Char)).length - 1 : Nat) : Int)
        ∧ ((["api".toList, "vpn".toList] : List (List Char)) ≠ [] →
            out.state.total_requests_made
              = ((["api".toList, "vpn".toList] : List (List Char)).length : Int)) :=
  total_requests_after_scan quiet_world end_to_end_run ["api".toList, "vpn".toList]
    (reply_with "[]".toList) stub_404_200 (by decide) rfl rfl (Or.inl rfl) rfl

/-- C5 counterexample: the end-to-end run (quiet world) runs the log phase
and probes its `N = 2` candidates, and `total_requests_made` ends at 2, not
at `N + 1 = 3`. -/
theorem total_requests_two_probes :
    ∃ out, main quiet_world end_to_end_run = some out
      ∧ out.wordlist.length = 2
      ∧ out.state.results.length = 2
      ∧ out.state.total_requests_made = 2
      ∧ out.state.total_requests_made ≠ (out.wordlist.length : Int) + 1 := by
  have h : (main quiet_world end_to_end_run).map (fun o =>
      (o.wordlist.length, o.state.results.length, o.state.total_requests_made))
      = some (2, 2, 2) := by decide
  cases hm : main quiet_world end_to_end_run with
  | none => rw [hm] at h; cases h
  | some out =>
    rw [hm] at h
    simp only [Option.map_some', Option.some.injEq, Prod.mk.injEq] at h
    obtain ⟨h1, h2, h3⟩ := h
    refine ⟨out, rfl, h1, h2, h3, ?_⟩
    rw [h1, h3]
    decide

/-! ## C6 -/

/-- C6: for every world, domain, transport behind the curl handle and
non-empty candidate list of `N` words, `scan_with_wordlist` returns having called
`rate_limit` exactly `N - 1` times, with the request numbers `2, ..., N` (the
call after the `k`-th candidate carries `k + 1`, and none follows the last),
and `total_requests_made` has grown by `N - 1`; for the empty candidate list
it returns the state unchanged, so no result is stored and
`total_requests_made` is as before. -/
theorem scan_with_wordlist_delays :
    (∀ (w : World) (tr : Transport) (domain : List Char) (wordlist : List (List Char))
        (st : ScanState), wordlist ≠ [] →
      ∃ st1, scan_with_wordlist w (some tr) domain wordlist st = some st1
        ∧ delay_requests st1.trace = delay_requests st.trace
            ++ (List.range (wordlist.length - 1)).map (fun (j : Nat) => (j : Int) + 2)
        ∧ (delay_requests st1.trace).length
            = (delay_requests st.trace).length + (wordlist.length - 1)
        ∧ st1.total_requests_made = st.total_requests_made + ((wordlist.length - 1 : Nat) : Int))
    ∧ (∀ (w : World) (curl : Option Transport) (domain : List Char) (st : ScanState),
        scan_with_wordlist w curl domain [] st = some st) := by
  constructor
  · intro w tr domain wordlist st _
    obtain ⟨st1, e, _, t, _, d⟩ := scan_with_wordlist_spec w tr domain wordlist st
    refine ⟨st1, e, d, ?_, t⟩
    rw [d]
    simp
  · intro w curl domain st
    cases curl <;> rfl

/-- C6 witness: three candidates give the two delays numbered 2 and 3. -/
theorem scan_with_wordlist_delays_witness :
    ∃ st1, scan_with_wordlist quiet_world (some stub_200_301_timeout) example_com
          words_www_mail_none (initial_state quiet_world) = some st1
        ∧ delay_requests st1.trace = [2, 3]
        ∧ st1.total_requests_made = 2 := by
  obtain ⟨st1, e, d, _, t⟩ := scan_with_wordlist_delays.1 quiet_world stub_200_301_timeout
    example_com words_www_mail_none (initial_state quiet_world) (by decide)
  exact ⟨st1, e, by rw [d]; decide, by rw [t]; decide⟩

/-! ## C7 -/

/-- C7 (as amended): for every world, domain and body of a successful
transfer, `query_certificate_transparency` returns, and the records it stores
are exactly, in body order, one per extracted candidate that contains
`domain` as a substring (so none for a candidate that lacks it), the
extracted candidates being pieces of 1 to 499 characters of the body; each has
`found = 1` and as `subdomain` the first 255 characters of its candidate,
which contain `domain` whenever the candidate has at most 255 characters.
The candidate `notexample.com.evil.org` is stored for `example.com`. -/
theorem query_ct_stores_matching_candidates :
    (∀ (w : World) (domain body : List Char) (st : ScanState),
      ∃ st1, query_certificate_transparency w (some (reply_with body)) domain st = some st1
        ∧ st1.results = st.results
            ++ ((ct_candidates body).filter (fun c => decide (domain <:+: c))).map cert_record
        ∧ (∀ r ∈ ((ct_candidates body).filter (fun c => decide (domain <:+: c))).map cert_record,
            r.found = 1 ∧ ∃ c ∈ ct_candidates body, domain <:+: c ∧ r.subdomain = c.take 255
              ∧ (c.length ≤ 255 → domain <:+: r.subdomain))
        ∧ (∀ c ∈ ct_candidates body, domain <:+: c → cert_record c ∈ st1.results)
        ∧ (∀ c ∈ ct_candidates body, c <:+: cstr body ∧ 0 < c.length ∧ c.length < 500))
    ∧ (∀ (w : World) (st : ScanState),
        ct_candidates body_evil = ["notexample.com.evil.org".toList]
        ∧ ∃ st1, query_certificate_transparency w (some (reply_with body_evil)) example_com st
            = some st1
          ∧ st1.results = st.results ++
              [{ subdomain := "notexample.com.evil.org".toList, found := 1,
                 ip := "N/A (from cert)".toList, http_status := 0 }]) := by
  constructor
  · intro w domain body st
    obtain ⟨st1, e, r, _⟩ := query_ct_spec w (reply_with body) domain st
    have hs : ct_stored domain (reply_with body)
        = ((ct_candidates body).filter (fun c => decide (domain <:+: c))).map cert_record := rfl
    rw [hs] at r
    refine ⟨st1, e, r, ?_, ?_, fun c hc => ct_extracted_infix _ _ c hc⟩
    · intro rec hrec
      obtain ⟨c, hc, rfl⟩ := List.mem_map.mp hrec
      obtain ⟨hmem, hin⟩ := List.mem_filter.mp hc
      have hin2 : domain <:+: c := of_decide_eq_true hin
      refine ⟨rfl, c, hmem, hin2, rfl, fun hlen => ?_⟩
      show domain <:+: c.take 255
      rw [List.take_of_length_le hlen]
      exact hin2
    · intro c hmem hin
      rw [r]
      apply List.mem_append_right
      exact List.mem_map.mpr ⟨c, List.mem_filter.mpr ⟨hmem, decide_eq_true hin⟩, rfl⟩
  · intro w st
    refine ⟨by decide, ?_⟩
    obtain ⟨st1, e, r, _⟩ := query_ct_spec w (reply_with body_evil) example_com st
    refine ⟨st1, e, ?_⟩
    rw [r]
    have h : ct_stored example_com (reply_with body_evil)
        = [{ subdomain := "notexample.com.evil.org".toList, found := 1,
             ip := "N/A (from cert)".toList, http_status := 0 }] := by decide
    rw [h]

/-- C7 witness: the candidate `notexample.com.evil.org` is extracted from
`body_evil`, contains `example.com`, and its record is stored. -/
theorem query_ct_stores_matching_candidates_witness :
    ∃ st1, query_certificate_transparency quiet_world (some (reply_with body_evil)) example_com
          (initial_state quiet_world) = some st1
      ∧ cert_record "notexample.com.evil.org".toList ∈ st1.results := by
  obtain ⟨st1, e, _, _, h, _⟩ := query_ct_stores_matching_candidates.1 quiet_world example_com
    body_evil (initial_state quiet_world)
  exact ⟨st1, e, h _ (by decide) (by decide)⟩

set_option maxRecDepth 100000 in
/-- C7 counterexample: from `body_long_value` one candidate of 262 characters
is extracted; it contains `example.com`, a record is stored for it, and the
`subdomain` field of that record, the first 255 characters, does not contain
`example.com`. -/
theorem query_ct_truncated_record_lacks_domain :
    ∃ st1 c r, query_certificate_transparency quiet_world (some (reply_with body_long_value))
          example_com (initial_state quiet_world) = some st1
      ∧ ct_candidates body_long_value = [c] ∧ example_com <:+: c
      ∧ st1.results = [r] ∧ ¬ example_com <:+: r.subdomain := by
  obtain ⟨st1, e, r, _⟩ := query_ct_spec quiet_world (reply_with body_long_value) example_com
    (initial_state quiet_world)
  have h : ct_stored example_com (reply_with body_long_value)
      = [cert_record (List.replicate 250 'a' ++ ".example.com".toList)] := by decide
  rw [h] at r
  refine ⟨st1, List.replicate 250 'a' ++ ".example.com".toList,
    cert_record (List.replicate 250 'a' ++ ".example.com".toList), e, ?_, ?_, r, ?_⟩
  · decide
  · decide
  · decide

/-! ## C8 -/

/-- C8 (as amended): for every world, domain and state: on every path on
which `curl_easy_init` gave a handle, whatever the transfer gives,
`query_certificate_transparency` returns having called `rate_limit` exactly
once, with request number 1, and when the transfer failed or no data arrived
it has stored no result; on the path without a handle it returns the state
unchanged, with no `rate_limit` call and no result. -/
theorem query_ct_rate_limits_once (w : World) (domain : List Char) (st : ScanState) :
    (∀ reply : CtReply,
      ∃ st1, query_certificate_transparency w (some reply) domain st = some st1
        ∧ delay_requests st1.trace = delay_requests st.trace ++ [1]
        ∧ st1.total_requests_made = st.total_requests_made + 1
        ∧ ((reply.res_ok = false ∨ reply.data = none) → st1.results = st.results))
    ∧ query_certificate_transparency w none domain st = some st := by
  refine ⟨fun reply => ?_, query_ct_no_handle w domain st⟩
  obtain ⟨st1, e, r, t, _, d⟩ := query_ct_spec w reply domain st
  refine ⟨st1, e, d, t, fun hfail => ?_⟩
  rw [r]
  have hs : ct_stored domain reply = [] := by
    unfold ct_stored
    rcases hfail with hf | hf <;> rw [hf]
    cases reply.res_ok <;> rfl
  rw [hs, List.append_nil]

/-- C8 witness: a transfer that failed, with a handle in place. -/
theorem query_ct_rate_limits_once_witness :
    ∃ st1, query_certificate_transparency quiet_world
          (some { res_ok := false, data := none }) example_com
          (initial_state quiet_world) = some st1
      ∧ delay_requests st1.trace = [1]
      ∧ st1.total_requests_made = 1
      ∧ st1.results = [] := by
  obtain ⟨st1, e, d, t, r⟩ := (query_ct_rate_limits_once quiet_world example_com
    (initial_state quiet_world)).1 { res_ok := false, data := none }
  exact ⟨st1, e, d, t, r (Or.inl rfl)⟩

/-- C8 counterexample: on the path where `curl_easy_init` gives no handle
(line 336) the function returns with no `rate_limit` call made: the trace
holds no delay and `total_requests_made` is still 0. -/
theorem query_ct_no_handle_no_delay :
    ∃ st1, query_certificate_transparency quiet_world none example_com
          (initial_state quiet_world) = some st1
      ∧ delay_requests st1.trace = []
      ∧ delay_requests st1.trace ≠ delay_requests (initial_state quiet_world).trace ++ [1]
      ∧ st1.total_requests_made = 0 :=
  ⟨initial_state quiet_world, rfl, rfl, by decide, rfl⟩

/-! ## C9 -/

/-- C9 (the code at the failing input): for the wordlist file holding one
comment line and one empty line, `load_wordlist` returns 1 with no word
loaded, and `main` goes on: it returns 0 with an empty wordlist after the log
phase has run (its `rate_limit(1)` call is in the trace). -/
theorem load_wordlist_comment_only (w : World) :
    load_wordlist comment_only_run.wordlist_file = some (1, [])
      ∧ ∃ out, main w comment_only_run = some out
        ∧ out.exit_code = 0
        ∧ out.wordlist = []
        ∧ delay_requests out.state.trace = [1] := by
  refine ⟨by decide, ?_⟩
  obtain ⟨out, e, x, l, _, _, d, _⟩ :=
    main_spec w comment_only_run [] (reply_with "[]".toList) stub_404_200
      (by decide) rfl rfl (Or.inl rfl) rfl
  exact ⟨out, e, x, l, by simpa using d⟩

/-! ## C10 -/

/-- C10: for a fixed domain, candidate list and transport (and a fixed result
of `curl_easy_init`), two runs of `scan_with_wordlist`, each from a state
with an empty result store, both return and leave identical `results` (every
field of every record, in order), whatever the `rand()` draws and clock
readings of the two worlds and whatever the other fields of the two starting
states are. -/
theorem scan_with_wordlist_repeatable (w1 w2 : World) (curl : Option Transport)
    (domain : List Char) (wordlist : List (List Char)) (st1 st2 : ScanState)
    (h1 : st1.results = []) (h2 : st2.results = []) :
    ∃ s1 s2, scan_with_wordlist w1 curl domain wordlist st1 = some s1
      ∧ scan_with_wordlist w2 curl domain wordlist st2 = some s2
      ∧ s1.results = s2.results := by
  cases curl with
  | none =>
    refine ⟨st1, st2, scan_with_wordlist_no_handle _ _ _ _,
      scan_with_wordlist_no_handle _ _ _ _, ?_⟩
    rw [h1, h2]
  | some tr =>
    obtain ⟨s1, e1, r1, _⟩ := scan_with_wordlist_spec w1 tr domain wordlist st1
    obtain ⟨s2, e2, r2, _⟩ := scan_with_wordlist_spec w2 tr domain wordlist st2
    refine ⟨s1, s2, e1, e2, ?_⟩
    rw [r1, r2, h1, h2]

/-- C10 witness: the same scan in the quiet world and in the busy world. -/
theorem scan_with_wordlist_repeatable_witness :
    ∃ s1 s2, scan_with_wordlist quiet_world (some stub_200_301_timeout) example_com
          words_www_mail_none (initial_state quiet_world) = some s1
      ∧ scan_with_wordlist busy_world (some stub_200_301_timeout) example_com
          words_www_mail_none (initial_state busy_world) = some s2
      ∧ s1.results = s2.results :=
  scan_with_wordlist_repeatable quiet_world busy_world (some stub_200_301_timeout) example_com
    words_www_mail_none (initial_state quiet_world) (initial_state busy_world) rfl rfl

/-! ## C11 -/

/-- C11: `add_result` is a pure append on the result store. For every state
and every arguments, `result_count` grows by exactly 1; every record stored
before the call is still there at its index; the new record, at the old
`result_count`, holds the given `found` and `http_status`, the first 255
characters of `subdomain` and the first 45 characters of `ip` (the empty
string when `ip` is NULL); nothing else in the state changes; and a record
equal to one already stored is appended all the same, so adding the same
arguments twice leaves two more records. -/
theorem add_result_appends (subdomain : List Char) (found : Int) (ip : Option (List Char))
    (http_status : Int) (st : ScanState) :
    (add_result subdomain found ip http_status st).result_count = st.result_count + 1
      ∧ (∀ (i : Nat) (r : SubdomainResult), st.results[i]? = some r →
          (add_result subdomain found ip http_status st).results[i]? = some r)
      ∧ (add_result subdomain found ip http_status st).results
          = st.results ++
              [{ subdomain := subdomain.take 255, found := found,
                 ip := (ip.map (fun s => s.take 45)).getD [], http_status := http_status }]
      ∧ (add_result subdomain found ip http_status st).results[st.results.length]?
          = some { subdomain := subdomain.take 255, found := found,
                   ip := (ip.map (fun s => s.take 45)).getD [], http_status := http_status }
      ∧ (subdomain.take 255).length = min 255 subdomain.length
      ∧ ((ip.map (fun s => s.take 45)).getD []).length ≤ 45
      ∧ (ip = none → (ip.map (fun s => s.take 45)).getD [] = [])
      ∧ (add_result subdomain found ip http_status st).total_requests_made
          = st.total_requests_made
      ∧ (add_result subdomain found ip http_status st).scan_start_time = st.scan_start_time
      ∧ (add_result subdomain found ip http_status st).rand_calls = st.rand_calls
      ∧ (add_result subdomain found ip http_status st).time_calls = st.time_calls
      ∧ (add_result subdomain found ip http_status st).trace = st.trace
      ∧ (add_result subdomain found ip http_status
            (add_result subdomain found ip http_status st)).result_count
          = st.result_count + 2 := by
  have hres : (add_result subdomain found ip http_status st).results
      = st.results ++
          [{ subdomain := subdomain.take 255, found := found,
             ip := (ip.map (fun s => s.take 45)).getD [], http_status := http_status }] := by
    cases ip <;> rfl
  refine ⟨?_, ?_, hres, ?_, ?_, ?_, ?_, rfl, rfl, rfl, rfl, rfl, ?_⟩
  · unfold ScanState.result_count
    rw [hres]
    simp
  · intro i r h
    rw [hres]
    have hi : i < st.results.length := by
      by_contra hn
      rw [List.getElem?_eq_none (by omega)] at h
      cases h
    rw [List.getElem?_append_left hi]
    exact h
  · rw [hres]
    simp
  · rw [List.length_take]
  · cases ip with
    | none => simp
    | some s =>
      simp only [Option.map_some', Option.getD_some, List.length_take]
      omega
  · intro h
    rw [h]
    rfl
  · unfold ScanState.result_count
    simp [add_result]

/-! ## C12 -/

/-- C12 (as amended): at the default target of 12 requests per minute the
base delay is 5000 ms and `jitter` is 1250, and the offset
`rand() % 2500 - 1250` that `rate_limit` adds to the base delay before
clamping ranges over the whole of `[-1250, +1249]`: every draw gives an
offset in that interval (so within 25% of the base), every integer of the
interval is the offset of some draw below 2500, `-1250` comes from the draw
0 and the largest offset, `+1249`, from the draw 2499. -/
theorem jitter_offset_default_range :
    base_delay_ms REQUESTS_PER_MINUTE = 5000
      ∧ jitter REQUESTS_PER_MINUTE = 1250
      ∧ (∀ r : Nat, rate_limit_delay REQUESTS_PER_MINUTE r
          = some (clamp_delay (5000 + jitter_offset REQUESTS_PER_MINUTE r)))
      ∧ (∀ r : Nat, -1250 ≤ jitter_offset REQUESTS_PER_MINUTE r
          ∧ jitter_offset REQUESTS_PER_MINUTE r ≤ 1249)
      ∧ (∀ j : Int, -1250 ≤ j → j ≤ 1249 →
          ∃ r : Nat, r < 2500 ∧ jitter_offset REQUESTS_PER_MINUTE r = j)
      ∧ jitter_offset REQUESTS_PER_MINUTE 0 = -1250
      ∧ jitter_offset REQUESTS_PER_MINUTE 2499 = 1249 := by
  refine ⟨by decide, by decide, ?_, ?_, ?_, by decide, by decide⟩
  · intro r
    rw [rate_limit_delay_default, jitter_offset_default]
    have h : Int.tmod (r : Int) 2500 = (r : Int) % 2500 :=
      Int.tmod_eq_emod (Int.ofNat_nonneg r) (by norm_num)
    rw [h]
  · intro r
    rw [jitter_offset_default]
    omega
  · intro j h0 h1
    refine ⟨(j + 1250).toNat, by omega, ?_⟩
    rw [jitter_offset_default]
    omega

/-- C12 witness: the offset `+1249` is produced by a draw below 2500. -/
theorem jitter_offset_default_range_witness :
    ∃ r : Nat, r < 2500 ∧ jitter_offset REQUESTS_PER_MINUTE r = 1249 :=
  jitter_offset_default_range.2.2.2.2.1 1249 (by decide) (by decide)

/-- C12 counterexample: no draw gives the offset `+1250`, the upper endpoint
of the closed interval. -/
theorem jitter_offset_never_1250 :
    ¬ ∃ r : Nat, jitter_offset REQUESTS_PER_MINUTE r = 1250 := by
  rintro ⟨r, h⟩
  rw [jitter_offset_default] at h
  omega

end ShadowScan
